import Mathlib

/-!
Verification development for a 4x4 single-precision matrix library with a
scalar (SISD) multiply and an AVX/FMA vectorized (SIMD) multiply.

The development shallowly embeds the two matrix types and their operations.
IEEE-754 binary32 values are modelled by the inductive `F32`: a single NaN,
signed infinities, signed zeros, and finite nonzero values `(-1)^s * m * 2^e`
kept in canonical form (normal: `2^23 <= m < 2^24`, `-149 <= e <= 104`;
subnormal: `0 < m < 2^23`, `e = -149`).  Arithmetic is exact integer
arithmetic on scaled significands followed by round-to-nearest-even, the
rounding mode Rust uses for `f32` `+`, `*` and fused multiply-add.
-/

inductive F32 where
  | nan : F32
  | inf : Bool → F32
  | zero : Bool → F32
  | finite : Bool → ℕ → ℤ → F32
deriving DecidableEq, Repr

/-- Positive zero, the bit pattern of the `0.` literals in the source. -/
def f32PosZero : F32 := F32.zero false

/-- The value `1.0f32`, `2^23 * 2^-23`. -/
def f32One : F32 := F32.finite false (2 ^ 23) (-23)

/-- Fuel-driven base-2 logarithm on naturals, kernel-reducible (structural
recursion on the fuel, unlike `Nat.log2`). -/
def natLog2Aux (fuel n : ℕ) : ℕ :=
  match fuel with
  | 0 => 0
  | f + 1 => if n ≥ 2 then natLog2Aux f (n / 2) + 1 else 0

/-- `natLog2 n` is `⌊log₂ n⌋` for `n ≥ 1` (fuel `n` always suffices). -/
def natLog2 (n : ℕ) : ℕ := natLog2Aux n n

/-- Round the positive real `M * 2^e` (`M ≥ 1`) to the nearest binary32 value
with ties to even, attaching sign `sign`; overflow gives an infinity,
total underflow a signed zero. -/
def roundNat (M : ℕ) (e : ℤ) (sign : Bool) : F32 :=
  let L : ℤ := natLog2 M
  let etarget : ℤ := max (L + e - 23) (-149)
  let s : ℤ := etarget - e
  let m0 : ℕ :=
    if s ≤ 0 then M * 2 ^ (-s).toNat
    else
      let d := 2 ^ s.toNat
      let q := M / d
      let r := M % d
      let half := d / 2
      if half < r then q + 1 else if r < half then q else q + q % 2
  let m1 : ℕ := if 2 ^ 24 ≤ m0 then 2 ^ 23 else m0
  let e1 : ℤ := if 2 ^ 24 ≤ m0 then etarget + 1 else etarget
  if m1 = 0 then F32.zero sign
  else if 105 ≤ e1 then F32.inf sign
  else F32.finite sign m1 e1

/-- Round the exact value `M * 2^e` (`M : ℤ`) to binary32, round to nearest,
ties to even.  An exact zero rounds to `+0`, as IEEE-754 prescribes for an
exact zero sum in this rounding mode; an inexact zero keeps the sign of `M`. -/
def roundInt (M : ℤ) (e : ℤ) : F32 :=
  if M = 0 then F32.zero false
  else roundNat M.natAbs e (decide (M < 0))

/-- The signed integer significand of a finite value (zeros give `0`). -/
def signedM (s : Bool) (m : ℕ) : ℤ := if s then -(m : ℤ) else (m : ℤ)

def f32Neg : F32 → F32
  | .nan => .nan
  | .inf s => .inf (!s)
  | .zero s => .zero (!s)
  | .finite s m e => .finite (!s) m e

def f32Abs : F32 → F32
  | .nan => .nan
  | .inf _ => .inf false
  | .zero _ => .zero false
  | .finite _ m e => .finite false m e

/-- IEEE-754 binary32 addition (round to nearest, ties to even). -/
def f32Add : F32 → F32 → F32
  | .nan, _ => .nan
  | _, .nan => .nan
  | .inf s, .inf t => if s = t then .inf s else .nan
  | .inf s, _ => .inf s
  | _, .inf t => .inf t
  | .zero s, .zero t => if s = t then .zero s else .zero false
  | .zero _, .finite t m e => .finite t m e
  | .finite s m e, .zero _ => .finite s m e
  | .finite s1 m1 e1, .finite s2 m2 e2 =>
      let em := min e1 e2
      roundInt (signedM s1 m1 * 2 ^ (e1 - em).toNat + signedM s2 m2 * 2 ^ (e2 - em).toNat) em

def f32Sub (a b : F32) : F32 := f32Add a (f32Neg b)

/-- IEEE-754 binary32 multiplication (round to nearest, ties to even). -/
def f32Mul : F32 → F32 → F32
  | .nan, _ => .nan
  | _, .nan => .nan
  | .inf s, .inf t => .inf (xor s t)
  | .inf _, .zero _ => .nan
  | .zero _, .inf _ => .nan
  | .inf s, .finite t _ _ => .inf (xor s t)
  | .finite s _ _, .inf t => .inf (xor s t)
  | .zero s, .zero t => .zero (xor s t)
  | .zero s, .finite t _ _ => .zero (xor s t)
  | .finite s _ _, .zero t => .zero (xor s t)
  | .finite s1 m1 e1, .finite s2 m2 e2 =>
      roundInt (signedM s1 m1 * signedM s2 m2) (e1 + e2)

/-- IEEE-754 fused multiply-add: `a * b + c` with the product kept exact and a
single rounding at the end (the semantics of `_mm256_fmadd_ps` per lane). -/
def f32Fma : F32 → F32 → F32 → F32
  | .nan, _, _ => .nan
  | _, .nan, _ => .nan
  | .inf s, .inf t, c =>
      (match c with
       | .nan => .nan
       | .inf u => if u = xor s t then .inf u else .nan
       | _ => .inf (xor s t))
  | .inf _, .zero _, _ => .nan
  | .zero _, .inf _, _ => .nan
  | .inf s, .finite t _ _, c =>
      (match c with
       | .nan => .nan
       | .inf u => if u = xor s t then .inf u else .nan
       | _ => .inf (xor s t))
  | .finite s _ _, .inf t, c =>
      (match c with
       | .nan => .nan
       | .inf u => if u = xor s t then .inf u else .nan
       | _ => .inf (xor s t))
  | .zero s, .zero t, c => f32Add (.zero (xor s t)) c
  | .zero s, .finite t _ _, c => f32Add (.zero (xor s t)) c
  | .finite s _ _, .zero t, c => f32Add (.zero (xor s t)) c
  | .finite s1 m1 e1, .finite s2 m2 e2, c =>
      match c with
      | .nan => .nan
      | .inf u => .inf u
      | .zero _ => roundInt (signedM s1 m1 * signedM s2 m2) (e1 + e2)
      | .finite s3 m3 e3 =>
          let ep := e1 + e2
          let em := min ep e3
          roundInt
            (signedM s1 m1 * signedM s2 m2 * 2 ^ (ep - em).toNat
              + signedM s3 m3 * 2 ^ (e3 - em).toNat)
            em

def f32IsNan : F32 → Bool
  | .nan => true
  | _ => false

def f32IsInf : F32 → Bool
  | .inf _ => true
  | _ => false

/-- Finite in the IEEE sense: a zero, a subnormal or a normal value. -/
def f32IsFinite : F32 → Bool
  | .zero _ => true
  | .finite _ _ _ => true
  | _ => false

def f32IsZero : F32 → Bool
  | .zero _ => true
  | _ => false

/-- The signed scaled significand and exponent of a zero-or-finite value. -/
def sval : F32 → ℤ × ℤ
  | .zero _ => (0, 0)
  | .finite s m e => (signedM s m, e)
  | _ => (0, 0)

/-- IEEE-754 comparison: `none` when either operand is NaN, otherwise the
order of the represented extended reals (`-0` and `+0` compare equal). -/
def cmpF32 (a b : F32) : Option Ordering :=
  if f32IsNan a || f32IsNan b then none
  else
    match a, b with
    | .inf true, .inf true => some .eq
    | .inf true, _ => some .lt
    | _, .inf true => some .gt
    | .inf false, .inf false => some .eq
    | .inf false, _ => some .gt
    | _, .inf false => some .lt
    | x, y =>
        let p := sval x
        let q := sval y
        let em := min p.2 q.2
        some (compare (p.1 * 2 ^ (p.2 - em).toNat) (q.1 * 2 ^ (q.2 - em).toNat))

/-- The `==` of Rust `f32` (IEEE equality: `-0 == +0`, NaN equal to nothing). -/
def f32Eq (a b : F32) : Bool := cmpF32 a b = some Ordering.eq

/-- The `<` of Rust `f32`. -/
def f32Lt (a b : F32) : Bool := cmpF32 a b = some Ordering.lt

/-- The `<=` of Rust `f32`. -/
def f32Le (a b : F32) : Bool :=
  match cmpF32 a b with
  | some Ordering.lt => true
  | some Ordering.eq => true
  | _ => false

/-- Rust `f32::signum`: `±1.0` by sign bit (also for zeros and infinities),
NaN for NaN. -/
def f32Signum : F32 → F32
  | .nan => .nan
  | .inf s => .finite s (2 ^ 23) (-23)
  | .zero s => .finite s (2 ^ 23) (-23)
  | .finite s _ _ => .finite s (2 ^ 23) (-23)

/-- The binary32 bit pattern of a canonical value (`Rust f32::to_bits`; the
model's single NaN takes the quiet NaN pattern Rust arithmetic produces). -/
def f32ToBits : F32 → ℕ
  | .nan => 0x7FC00000
  | .inf s => (if s then 2 ^ 31 else 0) + 255 * 2 ^ 23
  | .zero s => if s then 2 ^ 31 else 0
  | .finite s m e =>
      (if s then 2 ^ 31 else 0) +
        (if m < 2 ^ 23 then m else (e + 150).toNat * 2 ^ 23 + (m - 2 ^ 23))

/-- The bit pattern reinterpreted as a two's-complement `i32`. -/
def f32ToI32 (x : F32) : ℤ :=
  if f32ToBits x < 2 ^ 31 then (f32ToBits x : ℤ) else (f32ToBits x : ℤ) - 2 ^ 32

/-- Wrap an integer into `i32` range, as release-mode Rust subtraction does. -/
def i32Wrap (z : ℤ) : ℤ := (z + 2 ^ 31) % 2 ^ 32 - 2 ^ 31

/-- `i32::abs` including its wrapping behaviour at `i32::MIN`. -/
def i32Abs (z : ℤ) : ℤ := if z = -(2 ^ 31) then -(2 ^ 31) else (z.natAbs : ℤ)

/-- `f32::EPSILON = 2^-23`, the `approx` crate's default epsilon and default
max-relative tolerance for `f32`. -/
def f32Epsilon : F32 := F32.finite false (2 ^ 23) (-46)

/-- The `approx` crate's `f32` default max ULPs tolerance. -/
def default_max_ulps : ℕ := 4

/-- `approx::AbsDiffEq for f32`: `f32::abs(self - other) <= epsilon`. -/
def f32AbsDiffEq (a b eps : F32) : Bool := f32Le (f32Abs (f32Sub a b)) eps

/-- `approx::RelativeEq for f32`, line for line from the crate source. -/
def f32RelativeEq (a b eps maxRelative : F32) : Bool :=
  if f32Eq a b then true
  else if f32IsInf a || f32IsInf b then false
  else
    let absDiff := f32Abs (f32Sub a b)
    if f32Le absDiff eps then true
    else
      let absSelf := f32Abs a
      let absOther := f32Abs b
      let largest := if f32Lt absSelf absOther then absOther else absSelf
      f32Le absDiff (f32Mul largest maxRelative)

/-- `approx::UlpsEq for f32`: absolute-difference shortcut, then a signum
test, then the distance of the bit patterns read as `i32`. -/
def f32UlpsEq (a b eps : F32) (maxUlps : ℕ) : Bool :=
  if f32AbsDiffEq a b eps then true
  else if !f32Eq (f32Signum a) (f32Signum b) then false
  else i32Abs (i32Wrap (f32ToI32 a - f32ToI32 b)) ≤ i32Wrap (maxUlps : ℤ)

/-!
## The two matrix types

Both Rust types wrap `[[f32; 4]; 4]` in row-major order (`cells r c` is
`self.0[r][c]`).  `Index`/`IndexMut` take a `(column, row)` pair and read
`self.0[index.1][index.0]`; out-of-range indices are ruled out by `Fin 4`,
matching the fatal bounds check of the native arrays.
-/

structure Matrix4x4Sisd where
  cells : Fin 4 → Fin 4 → F32

structure Matrix4x4Simd where
  cells : Fin 4 → Fin 4 → F32

def Matrix4x4Sisd.ZERO : Matrix4x4Sisd := ⟨fun _ _ => f32PosZero⟩

def Matrix4x4Sisd.IDENTITY : Matrix4x4Sisd :=
  ⟨fun r c => if r = c then f32One else f32PosZero⟩

def Matrix4x4Simd.ZERO : Matrix4x4Simd := ⟨fun _ _ => f32PosZero⟩

def Matrix4x4Simd.IDENTITY : Matrix4x4Simd :=
  ⟨fun r c => if r = c then f32One else f32PosZero⟩

/-- One row collected into a `Box<[f32]>` and `try_into`-converted to
`[f32; 4]`; the `unwrap` panic on a wrong length is modelled as `none`. -/
def tryIntoRow (l : List F32) : Option (Fin 4 → F32) :=
  if h : l.length = 4 then some (fun i => l.get ⟨i.val, by have := i.isLt; omega⟩)
  else none

/-- `Matrix4x4Sisd::from_rows`: every row is converted by `tryIntoRow`, then
the list of rows is `try_into`-converted to `[[f32; 4]; 4]`; any `unwrap`
panic is modelled as `none`. -/
def Matrix4x4Sisd.from_rows (rows : List (List F32)) : Option Matrix4x4Sisd :=
  (rows.mapM tryIntoRow).bind fun rs =>
    if h : rs.length = 4 then
      some ⟨fun r c => rs.get ⟨r.val, by have := r.isLt; omega⟩ c⟩
    else none

/-- `Matrix4x4Simd::from_rows`, the same construction for the SIMD type. -/
def Matrix4x4Simd.from_rows (rows : List (List F32)) : Option Matrix4x4Simd :=
  (rows.mapM tryIntoRow).bind fun rs =>
    if h : rs.length = 4 then
      some ⟨fun r c => rs.get ⟨r.val, by have := r.isLt; omega⟩ c⟩
    else none

/-- `Index<(usize, usize)>`: `&self.0[index.1][index.0]`. -/
def Matrix4x4Sisd.index (m : Matrix4x4Sisd) (i : Fin 4 × Fin 4) : F32 :=
  m.cells i.2 i.1

def Matrix4x4Simd.index (m : Matrix4x4Simd) (i : Fin 4 × Fin 4) : F32 :=
  m.cells i.2 i.1

/-- `IndexMut<(usize, usize)>`: the matrix after writing `v` through
`&mut self.0[index.1][index.0]`. -/
def Matrix4x4Sisd.index_mut_set (m : Matrix4x4Sisd) (i : Fin 4 × Fin 4)
    (v : F32) : Matrix4x4Sisd :=
  ⟨fun r c => if r = i.2 ∧ c = i.1 then v else m.cells r c⟩

def Matrix4x4Simd.index_mut_set (m : Matrix4x4Simd) (i : Fin 4 × Fin 4)
    (v : F32) : Matrix4x4Simd :=
  ⟨fun r c => if r = i.2 ∧ c = i.1 then v else m.cells r c⟩

/-- `flat_cells`: the 16 cells as one row-major slice (`bytemuck::cast_ref`
of `[[f32; 4]; 4]` to `[f32; 16]`). -/
def Matrix4x4Sisd.flat_cells (m : Matrix4x4Sisd) : Fin 16 → F32 :=
  fun i => m.cells ⟨i.val / 4, by have := i.isLt; omega⟩ ⟨i.val % 4, by have := i.isLt; omega⟩

def Matrix4x4Simd.flat_cells (m : Matrix4x4Simd) : Fin 16 → F32 :=
  fun i => m.cells ⟨i.val / 4, by have := i.isLt; omega⟩ ⟨i.val % 4, by have := i.isLt; omega⟩

def Matrix4x4Sisd.map (m : Matrix4x4Sisd) (f : F32 → F32) : Matrix4x4Sisd :=
  ⟨fun r c => f (m.cells r c)⟩

def Matrix4x4Simd.map (m : Matrix4x4Simd) (f : F32 → F32) : Matrix4x4Simd :=
  ⟨fun r c => f (m.cells r c)⟩

/-- `impl Mul for &Matrix4x4Sisd`: each result cell is
`(0..4).map(|k| self[(k, row)]).zip((0..4).map(|k| rhs[(column, k)]))
.map(|(a, b)| a * b).sum()`, where `sum` folds `f32` addition from `0.0`. -/
def Matrix4x4Sisd.mul (a rhs : Matrix4x4Sisd) : Matrix4x4Sisd :=
  ⟨fun row column =>
    ((((List.finRange 4).map fun k => a.index (k, row)).zip
        ((List.finRange 4).map fun k => rhs.index (column, k))).map
      fun p => f32Mul p.1 p.2).foldl f32Add f32PosZero⟩

/-- Derived `PartialEq` on `[[f32; 4]; 4]`: cellwise IEEE `==`. -/
def Matrix4x4Sisd.eq (a b : Matrix4x4Sisd) : Bool :=
  (List.finRange 16).all fun i => f32Eq (a.flat_cells i) (b.flat_cells i)

def Matrix4x4Simd.eq (a b : Matrix4x4Simd) : Bool :=
  (List.finRange 16).all fun i => f32Eq (a.flat_cells i) (b.flat_cells i)

/-- `AbsDiffEq for Matrix4x4Sisd`: all 16 flat cells pass `abs_diff_eq`. -/
def Matrix4x4Sisd.abs_diff_eq (a b : Matrix4x4Sisd) (eps : F32) : Bool :=
  (List.finRange 16).all fun i => f32AbsDiffEq (a.flat_cells i) (b.flat_cells i) eps

def Matrix4x4Simd.abs_diff_eq (a b : Matrix4x4Simd) (eps : F32) : Bool :=
  (List.finRange 16).all fun i => f32AbsDiffEq (a.flat_cells i) (b.flat_cells i) eps

/-- `RelativeEq for Matrix4x4Sisd`: all 16 flat cells pass `relative_eq`. -/
def Matrix4x4Sisd.relative_eq (a b : Matrix4x4Sisd) (eps maxRelative : F32) : Bool :=
  (List.finRange 16).all fun i =>
    f32RelativeEq (a.flat_cells i) (b.flat_cells i) eps maxRelative

def Matrix4x4Simd.relative_eq (a b : Matrix4x4Simd) (eps maxRelative : F32) : Bool :=
  (List.finRange 16).all fun i =>
    f32RelativeEq (a.flat_cells i) (b.flat_cells i) eps maxRelative

/-- `UlpsEq for Matrix4x4Sisd`: all 16 flat cells pass `ulps_eq`. -/
def Matrix4x4Sisd.ulps_eq (a b : Matrix4x4Sisd) (eps : F32) (maxUlps : ℕ) : Bool :=
  (List.finRange 16).all fun i =>
    f32UlpsEq (a.flat_cells i) (b.flat_cells i) eps maxUlps

def Matrix4x4Simd.ulps_eq (a b : Matrix4x4Simd) (eps : F32) (maxUlps : ℕ) : Bool :=
  (List.finRange 16).all fun i =>
    f32UlpsEq (a.flat_cells i) (b.flat_cells i) eps maxUlps

/-!
## The AVX intrinsics and the SIMD multiply kernel

An `__m256` register is eight `f32` lanes; lane `i` of the register loaded
from memory holds flat cell `i`.
-/

abbrev V8 := Fin 8 → F32

def mm256_set1_ps (x : F32) : V8 := fun _ => x

/-- `_mm256_blend_ps`: lane `i` comes from `b` when bit `i` of the immediate
is set, else from `a`. -/
def mm256_blend_ps (imm : ℕ) (a b : V8) : V8 :=
  fun i => if imm.testBit i.val then b i else a i

/-- `_mm256_permute2f128_ps`: each 128-bit half of the result is picked by a
nibble of the immediate (bit 3 zeroes the half, else bits 0-1 select one of
the four source halves). -/
def mm256_permute2f128_ps (imm : ℕ) (a b : V8) : V8 :=
  fun i =>
    let ctrl := (imm >>> (4 * (i.val / 4))) % 16
    let lane := i.val % 4
    have hl : lane < 4 := Nat.mod_lt _ (by omega)
    if ctrl.testBit 3 then f32PosZero
    else
      match ctrl % 4 with
      | 0 => a ⟨lane, by omega⟩
      | 1 => a ⟨4 + lane, by omega⟩
      | 2 => b ⟨lane, by omega⟩
      | _ => b ⟨4 + lane, by omega⟩

def mm256_mul_ps (a b : V8) : V8 := fun i => f32Mul (a i) (b i)

def mm256_fmadd_ps (a b c : V8) : V8 := fun i => f32Fma (a i) (b i) (c i)

/-- `rows_m256`: the 16 flat cells split at 8 and reinterpreted as two
`__m256` registers, the first holding rows 0-1, the second rows 2-3. -/
def Matrix4x4Simd.rows_m256 (m : Matrix4x4Simd) : V8 × V8 :=
  (fun i => m.flat_cells ⟨i.val, by have := i.isLt; omega⟩,
   fun i => m.flat_cells ⟨8 + i.val, by have := i.isLt; omega⟩)

/-- `Matrix4x4Simd::multiply`, the AVX/FMA kernel, stage for stage from the
source: broadcast the four rows of `rhs`, blend broadcast columns of `self`
for output rows 0-1 and 2-3, accumulate with one multiply and three fused
multiply-adds, and reinterpret the two result registers as the matrix. -/
def Matrix4x4Simd.multiply (a rhs : Matrix4x4Simd) : Matrix4x4Simd :=
  let self_rows := a.cells
  let rhs_regs := rhs.rows_m256
  let rhs_rows_0_1 := rhs_regs.1
  let rhs_rows_2_3 := rhs_regs.2
  let rhs_rows_0_0 := mm256_permute2f128_ps 0b00000000 rhs_rows_0_1 rhs_rows_0_1
  let rhs_rows_1_1 := mm256_permute2f128_ps 0b00010001 rhs_rows_0_1 rhs_rows_0_1
  let rhs_rows_2_2 := mm256_permute2f128_ps 0b00000000 rhs_rows_2_3 rhs_rows_2_3
  let rhs_rows_3_3 := mm256_permute2f128_ps 0b00010001 rhs_rows_2_3 rhs_rows_2_3
  let self_column_0_rows_0_1 := mm256_blend_ps 0b11110000
    (mm256_set1_ps (self_rows 0 0)) (mm256_set1_ps (self_rows 1 0))
  let self_column_1_rows_0_1 := mm256_blend_ps 0b11110000
    (mm256_set1_ps (self_rows 0 1)) (mm256_set1_ps (self_rows 1 1))
  let self_column_2_rows_0_1 := mm256_blend_ps 0b11110000
    (mm256_set1_ps (self_rows 0 2)) (mm256_set1_ps (self_rows 1 2))
  let self_column_3_rows_0_1 := mm256_blend_ps 0b11110000
    (mm256_set1_ps (self_rows 0 3)) (mm256_set1_ps (self_rows 1 3))
  let result_rows_0_1 :=
    mm256_fmadd_ps self_column_3_rows_0_1 rhs_rows_3_3
      (mm256_fmadd_ps self_column_2_rows_0_1 rhs_rows_2_2
        (mm256_fmadd_ps self_column_1_rows_0_1 rhs_rows_1_1
          (mm256_mul_ps self_column_0_rows_0_1 rhs_rows_0_0)))
  let self_column_0_rows_2_3 := mm256_blend_ps 0b11110000
    (mm256_set1_ps (self_rows 2 0)) (mm256_set1_ps (self_rows 3 0))
  let self_column_1_rows_2_3 := mm256_blend_ps 0b11110000
    (mm256_set1_ps (self_rows 2 1)) (mm256_set1_ps (self_rows 3 1))
  let self_column_2_rows_2_3 := mm256_blend_ps 0b11110000
    (mm256_set1_ps (self_rows 2 2)) (mm256_set1_ps (self_rows 3 2))
  let self_column_3_rows_2_3 := mm256_blend_ps 0b11110000
    (mm256_set1_ps (self_rows 2 3)) (mm256_set1_ps (self_rows 3 3))
  let result_rows_2_3 :=
    mm256_fmadd_ps self_column_3_rows_2_3 rhs_rows_3_3
      (mm256_fmadd_ps self_column_2_rows_2_3 rhs_rows_2_2
        (mm256_fmadd_ps self_column_1_rows_2_3 rhs_rows_1_1
          (mm256_mul_ps self_column_0_rows_2_3 rhs_rows_0_0)))
  ⟨fun r c =>
    if h : r.val < 2 then result_rows_0_1 ⟨4 * r.val + c.val, by have := c.isLt; omega⟩
    else result_rows_2_3 ⟨4 * (r.val - 2) + c.val, by have := r.isLt; have := c.isLt; omega⟩⟩

/-- `From<Matrix4x4Sisd> for Matrix4x4Simd`: `Self(value.0)`. -/
def Matrix4x4Simd.fromSisd (value : Matrix4x4Sisd) : Matrix4x4Simd := ⟨value.cells⟩

/-- `From<Matrix4x4Simd> for Matrix4x4Sisd`: `Self(value.0)`. -/
def Matrix4x4Sisd.fromSimd (value : Matrix4x4Simd) : Matrix4x4Sisd := ⟨value.cells⟩

/-- The runtime capability state `is_x86_feature_detected!` reports. -/
structure CpuFeatures where
  avx : Bool
  fma : Bool

/-- `impl Mul for &Matrix4x4Simd`: `assert!(avx && fma)` then the unsafe
kernel call; the assert's panic on missing features is modelled as `none`.
The check sits inside `mul` itself, so it runs on every invocation. -/
def Matrix4x4Simd.mulChecked (feat : CpuFeatures) (a rhs : Matrix4x4Simd) :
    Option Matrix4x4Simd :=
  if feat.avx && feat.fma then some (a.multiply rhs) else none

/-!
## Concrete matrices used by the examples

`f32OfNat n` is the exact binary32 value of a small natural number.  The
scenario matrices are the concrete multiply example of the specification;
the cancellation matrices exhibit the rounding difference between the
scalar and the fused-multiply-add accumulation.
-/

def f32OfNat (n : ℕ) : F32 := roundInt (n : ℤ) 0

def mkRow (a b c d : F32) : Fin 4 → F32 := fun i =>
  match i.val with
  | 0 => a
  | 1 => b
  | 2 => c
  | _ => d

def mkCells (r0 r1 r2 r3 : Fin 4 → F32) : Fin 4 → Fin 4 → F32 := fun r =>
  match r.val with
  | 0 => r0
  | 1 => r1
  | 2 => r2
  | _ => r3

def natRow (a b c d : ℕ) : Fin 4 → F32 :=
  mkRow (f32OfNat a) (f32OfNat b) (f32OfNat c) (f32OfNat d)

/-- The specification's scenario matrix `A = [[1,2,0,1],[0,1,3,2],[4,0,1,0],[2,1,0,1]]`. -/
def scenarioA : Matrix4x4Sisd :=
  ⟨mkCells (natRow 1 2 0 1) (natRow 0 1 3 2) (natRow 4 0 1 0) (natRow 2 1 0 1)⟩

/-- The specification's scenario matrix `B = [[2,1,3,0],[1,0,2,1],[0,1,1,2],[3,0,0,1]]`. -/
def scenarioB : Matrix4x4Sisd :=
  ⟨mkCells (natRow 2 1 3 0) (natRow 1 0 2 1) (natRow 0 1 1 2) (natRow 3 0 0 1)⟩

/-- The specification's expected scenario product. -/
def scenarioC : Matrix4x4Sisd :=
  ⟨mkCells (natRow 7 1 7 3) (natRow 7 3 5 9) (natRow 8 5 13 2) (natRow 8 2 8 2)⟩

/-- `x = 4 + 2^-10`: `x * x` is inexact in binary32, which makes the fused
and the separately rounded accumulations differ. -/
def cexX : F32 := F32.finite false (2 ^ 23 + 2 ^ 11) (-21)

/-- Left factor of the cancellation counterexample: row 0 is `[x, x, 0, 0]`. -/
def cexA : Matrix4x4Sisd :=
  ⟨mkCells (mkRow cexX cexX f32PosZero f32PosZero)
    (natRow 0 0 0 0) (natRow 0 0 0 0) (natRow 0 0 0 0)⟩

/-- Right factor of the cancellation counterexample: column 0 is
`[x, -x, 0, 0]`. -/
def cexB : Matrix4x4Sisd :=
  ⟨mkCells (mkRow cexX f32PosZero f32PosZero f32PosZero)
    (mkRow (f32Neg cexX) f32PosZero f32PosZero f32PosZero)
    (natRow 0 0 0 0) (natRow 0 0 0 0)⟩

/-- The SISD product computed with the SIMD kernel after converting both
operands, converted back to the scalar representation. -/
def viaSimd (a b : Matrix4x4Sisd) : Matrix4x4Sisd :=
  Matrix4x4Sisd.fromSimd ((Matrix4x4Simd.fromSisd a).multiply (Matrix4x4Simd.fromSisd b))

/-- A matrix that is `ZERO` except for a NaN cell at `(column, row) = (0, 0)`. -/
def nanMat : Matrix4x4Sisd := Matrix4x4Sisd.ZERO.index_mut_set (0, 0) F32.nan

/-- A matrix that is `ZERO` except for a `-0.0` cell at `(0, 0)`. -/
def negZeroMat : Matrix4x4Sisd := Matrix4x4Sisd.ZERO.index_mut_set (0, 0) (F32.zero true)

theorem Matrix4x4Sisd.cellsCongrSisd (m : Matrix4x4Sisd) {a b x y : Fin 4}
    (h1 : a = x) (h2 : b = y) : m.cells a b = m.cells x y := by rw [h1, h2]

theorem Matrix4x4Simd.cellsCongrSimd (m : Matrix4x4Simd) {a b x y : Fin 4}
    (h1 : a = x) (h2 : b = y) : m.cells a b = m.cells x y := by rw [h1, h2]

/-- Reading a flat cell at row-major position `4 * r + c` reads cell `(c, r)`. -/
theorem Matrix4x4Sisd.flat_cells_at_sisd (m : Matrix4x4Sisd) (r c : Fin 4)
    (h : 4 * r.val + c.val < 16) : m.flat_cells ⟨4 * r.val + c.val, h⟩ = m.cells r c := by
  rcases r with ⟨rv, hr⟩
  rcases c with ⟨cv, hc⟩
  simp only [Matrix4x4Sisd.flat_cells]
  apply m.cellsCongrSisd
  · apply Fin.ext
    show (4 * rv + cv) / 4 = rv
    omega
  · apply Fin.ext
    show (4 * rv + cv) % 4 = cv
    omega

theorem Matrix4x4Simd.flat_cells_at_simd (m : Matrix4x4Simd) (r c : Fin 4)
    (h : 4 * r.val + c.val < 16) : m.flat_cells ⟨4 * r.val + c.val, h⟩ = m.cells r c := by
  rcases r with ⟨rv, hr⟩
  rcases c with ⟨cv, hc⟩
  simp only [Matrix4x4Simd.flat_cells]
  apply m.cellsCongrSimd
  · apply Fin.ext
    show (4 * rv + cv) / 4 = rv
    omega
  · apply Fin.ext
    show (4 * rv + cv) % 4 = cv
    omega

/-- C2: the scalar multiply realises the (column, row) matrix-product formula:
cell `(col, row)` of `a * b` is the `f32` sum, folded left to right from
`0.0` exactly as `Iterator::sum` does, of `a[(k, row)] * b[(col, k)]` for
`k = 0, 1, 2, 3`.  The multiply builds a fresh matrix from its two operands;
the embedding is a pure function of them, mirroring that neither operand is
mutated. -/
theorem c2_sisd_mul_formula (a b : Matrix4x4Sisd) (col row : Fin 4) :
    (a.mul b).index (col, row) =
      f32Add (f32Add (f32Add (f32Add f32PosZero
        (f32Mul (a.index (0, row)) (b.index (col, 0))))
        (f32Mul (a.index (1, row)) (b.index (col, 1))))
        (f32Mul (a.index (2, row)) (b.index (col, 2))))
        (f32Mul (a.index (3, row)) (b.index (col, 3))) := rfl

/-- C3: the vectorized multiply entry point checks the AVX and FMA
capability on every invocation (the assert sits inside `mul` itself, and the
embedding takes the capability state anew at each call); when either feature
is missing the call aborts — it returns no result at all, in particular it
never falls back to a scalar computation. -/
theorem c3_capability_gate_aborts (feat : CpuFeatures) (a b : Matrix4x4Simd)
    (h : feat.avx = false ∨ feat.fma = false) :
    Matrix4x4Simd.mulChecked feat a b = none := by
  rcases h with h | h <;> simp [Matrix4x4Simd.mulChecked, h]

/-- Witness for C3: with AVX reported missing, the entry point aborts. -/
theorem c3_witness :
    Matrix4x4Simd.mulChecked ⟨false, true⟩ Matrix4x4Simd.ZERO Matrix4x4Simd.ZERO = none :=
  c3_capability_gate_aborts ⟨false, true⟩ Matrix4x4Simd.ZERO Matrix4x4Simd.ZERO (Or.inl rfl)

/-- C4: converting a scalar matrix to the vectorized representation and back
reproduces the matrix exactly; both `From` impls move the cell array
unchanged, so every one of the 16 cells keeps its bit pattern. -/
theorem c4_roundtrip_lossless (m : Matrix4x4Sisd) :
    Matrix4x4Sisd.fromSimd (Matrix4x4Simd.fromSisd m) = m ∧
    ∀ r c : Fin 4,
      f32ToBits ((Matrix4x4Simd.fromSisd m).cells r c) = f32ToBits (m.cells r c) :=
  ⟨rfl, fun _ _ => rfl⟩

/-- C9: for both representations the flat 16-cell row-major view agrees with
the (column, row)-indexed view: `flat_cells()[4*row + col] = M[(col, row)]`.
Both flat views are definitional reinterpretations of the backing cells, so
the consistency holds for every matrix value, hence for the result of every
operation that produces one. -/
theorem c9_flat_consistent (a : Matrix4x4Sisd) (b : Matrix4x4Simd) (col row : Fin 4) :
    a.flat_cells ⟨4 * row.val + col.val, by have := row.isLt; have := col.isLt; omega⟩ =
      a.index (col, row) ∧
    b.flat_cells ⟨4 * row.val + col.val, by have := row.isLt; have := col.isLt; omega⟩ =
      b.index (col, row) :=
  ⟨a.flat_cells_at_sisd row col (by have := row.isLt; have := col.isLt; omega),
   b.flat_cells_at_simd row col (by have := row.isLt; have := col.isLt; omega)⟩

/-- C10: writing `v` through the mutable index at `(col, row)` and then
reading any in-range cell returns `v` at `(col, row)` and the old value
everywhere else, for both representations. -/
theorem c10_set_frame (a : Matrix4x4Sisd) (b : Matrix4x4Simd)
    (col row col' row' : Fin 4) (v : F32) :
    (a.index_mut_set (col, row) v).index (col', row') =
      (if col' = col ∧ row' = row then v else a.index (col', row')) ∧
    (b.index_mut_set (col, row) v).index (col', row') =
      (if col' = col ∧ row' = row then v else b.index (col', row')) := by
  constructor <;>
  · simp only [Matrix4x4Sisd.index_mut_set, Matrix4x4Sisd.index,
      Matrix4x4Simd.index_mut_set, Matrix4x4Simd.index]
    by_cases h1 : row' = row <;> by_cases h2 : col' = col <;> simp [h1, h2]

/-- C1 fails as stated: at the cancellation pair `cexA`, `cexB` the scalar
product's cell `(0,0)` is `+0` (the rounding errors of `x*x` and `x*(-x)`
cancel, each product being rounded before the add), while the fused
multiply-add kernel keeps the second product exact and leaves the rounding
error `-2^-20` of the first.  The difference exceeds every default
tolerance, so all three approximate relations reject the pair. -/
theorem c1_counterexample :
    ¬ (Matrix4x4Sisd.abs_diff_eq (viaSimd cexA cexB) (Matrix4x4Sisd.mul cexA cexB)
        f32Epsilon = true ∧
       Matrix4x4Sisd.relative_eq (viaSimd cexA cexB) (Matrix4x4Sisd.mul cexA cexB)
        f32Epsilon f32Epsilon = true ∧
       Matrix4x4Sisd.ulps_eq (viaSimd cexA cexB) (Matrix4x4Sisd.mul cexA cexB)
        f32Epsilon default_max_ulps = true) := by decide

/-- C1 amended: the cross-implementation equivalence holds for the
specification's concrete scenario matrices (whose products and sums are
exact in binary32): converting to the vectorized representation,
multiplying with the kernel and converting back is approximately equal to
the scalar product under all three relations at their default tolerances —
the two results are in fact exactly equal and equal the specified product. -/
theorem c1_amended_scenario_equiv :
    Matrix4x4Sisd.abs_diff_eq (viaSimd scenarioA scenarioB)
      (Matrix4x4Sisd.mul scenarioA scenarioB) f32Epsilon = true ∧
    Matrix4x4Sisd.relative_eq (viaSimd scenarioA scenarioB)
      (Matrix4x4Sisd.mul scenarioA scenarioB) f32Epsilon f32Epsilon = true ∧
    Matrix4x4Sisd.ulps_eq (viaSimd scenarioA scenarioB)
      (Matrix4x4Sisd.mul scenarioA scenarioB) f32Epsilon default_max_ulps = true ∧
    Matrix4x4Sisd.eq (viaSimd scenarioA scenarioB)
      (Matrix4x4Sisd.mul scenarioA scenarioB) = true ∧
    Matrix4x4Sisd.eq (Matrix4x4Sisd.mul scenarioA scenarioB) scenarioC = true := by
  decide

/-- C5 fails as stated: a matrix with a NaN cell is not approximately equal
to itself under any of the three relations (`NaN - NaN` is NaN, which
passes no comparison, and the signum test of the ULPs relation also
rejects NaN). -/
theorem c5_counterexample :
    ¬ (nanMat.abs_diff_eq nanMat f32Epsilon = true ∧
       nanMat.relative_eq nanMat f32Epsilon f32Epsilon = true ∧
       nanMat.ulps_eq nanMat f32Epsilon default_max_ulps = true) := by decide

/-- C6 fails as stated: multiplying `ZERO` by a matrix with a NaN cell
yields `0 * NaN = NaN` in a cell, and the result is not equal to `ZERO`. -/
theorem c6_counterexample :
    Matrix4x4Sisd.eq (Matrix4x4Sisd.ZERO.mul nanMat) Matrix4x4Sisd.ZERO = false := by
  decide

/-- C7 fails as stated: the derived `PartialEq` is IEEE `==` cell by cell,
not a bitwise comparison — `ZERO` and the matrix with one `-0.0` cell
compare equal although the cell bit patterns differ. -/
theorem c7_counterexample :
    Matrix4x4Sisd.eq Matrix4x4Sisd.ZERO negZeroMat = true ∧
    f32ToBits (Matrix4x4Sisd.ZERO.cells 0 0) ≠ f32ToBits (negZeroMat.cells 0 0) := by
  decide

theorem intCompare_self (z : ℤ) : compare z z = Ordering.eq := by
  show compareOfLessAndEq z z = Ordering.eq
  simp [compareOfLessAndEq]

theorem f32Sub_self_finite (x : F32) (h : f32IsFinite x = true) : f32Sub x x = f32PosZero := by
  cases x with
  | nan => simp [f32IsFinite] at h
  | inf s => simp [f32IsFinite] at h
  | zero s => cases s <;> rfl
  | finite s m e =>
      cases s <;> simp [f32Sub, f32Neg, f32Add, signedM, roundInt, f32PosZero]

theorem f32Eq_self (x : F32) (h : f32IsNan x = false) : f32Eq x x = true := by
  cases x with
  | nan => simp [f32IsNan] at h
  | inf s => cases s <;> rfl
  | zero s => cases s <;> rfl
  | finite s m e =>
      show decide (cmpF32 (.finite s m e) (.finite s m e) = some Ordering.eq) = true
      simp [cmpF32, f32IsNan, sval, intCompare_self]

theorem f32AbsDiffEq_self (x : F32) (h : f32IsFinite x = true) :
    f32AbsDiffEq x x f32Epsilon = true := by
  unfold f32AbsDiffEq
  rw [f32Sub_self_finite x h]
  rfl

theorem f32RelativeEq_self (x : F32) (h : f32IsFinite x = true) :
    f32RelativeEq x x f32Epsilon f32Epsilon = true := by
  unfold f32RelativeEq
  rw [f32Eq_self x (by cases x <;> simp_all [f32IsFinite, f32IsNan])]
  rfl

theorem f32UlpsEq_self (x : F32) (h : f32IsFinite x = true) :
    f32UlpsEq x x f32Epsilon default_max_ulps = true := by
  unfold f32UlpsEq
  rw [f32AbsDiffEq_self x h]
  rfl

theorem f32IsZero_mul_poszero (b : F32) (h : f32IsFinite b = true) :
    f32IsZero (f32Mul f32PosZero b) = true := by
  cases b with
  | nan => simp [f32IsFinite] at h
  | inf s => simp [f32IsFinite] at h
  | zero t => rfl
  | finite t m e => rfl

theorem f32IsZero_add (x y : F32) (hx : f32IsZero x = true) (hy : f32IsZero y = true) :
    f32IsZero (f32Add x y) = true := by
  cases x with
  | nan => simp [f32IsZero] at hx
  | inf s => simp [f32IsZero] at hx
  | finite s m e => simp [f32IsZero] at hx
  | zero s =>
    cases y with
    | nan => simp [f32IsZero] at hy
    | inf t => simp [f32IsZero] at hy
    | finite t m e => simp [f32IsZero] at hy
    | zero t =>
      show f32IsZero (if s = t then F32.zero s else F32.zero false) = true
      by_cases h : s = t <;> simp [h, f32IsZero]

theorem f32IsZero_fma_poszero (b acc : F32) (hb : f32IsFinite b = true)
    (hacc : f32IsZero acc = true) : f32IsZero (f32Fma f32PosZero b acc) = true := by
  cases b with
  | nan => simp [f32IsFinite] at hb
  | inf s => simp [f32IsFinite] at hb
  | zero t => exact f32IsZero_add _ _ rfl hacc
  | finite t m e => exact f32IsZero_add _ _ rfl hacc

theorem f32Eq_poszero_of_isZero (c : F32) (h : f32IsZero c = true) :
    f32Eq c f32PosZero = true := by
  cases c with
  | zero s => cases s <;> rfl
  | nan => simp [f32IsZero] at h
  | inf s => simp [f32IsZero] at h
  | finite s m e => simp [f32IsZero] at h

/-- C5 amended: each of the three approximate relations is reflexive on
every matrix (of either representation) all of whose 16 cells are finite —
zeros, subnormals and normals; for a finite cell `x - x` is exactly `+0`,
which every relation accepts.  The restriction to finite cells is forced:
a NaN cell fails all three relations, an infinite cell the absolute one. -/
theorem c5_reflexive_on_finite (a : Matrix4x4Sisd) (b : Matrix4x4Simd)
    (ha : ∀ r c : Fin 4, f32IsFinite (a.cells r c) = true)
    (hb : ∀ r c : Fin 4, f32IsFinite (b.cells r c) = true) :
    (a.abs_diff_eq a f32Epsilon = true ∧
     a.relative_eq a f32Epsilon f32Epsilon = true ∧
     a.ulps_eq a f32Epsilon default_max_ulps = true) ∧
    (b.abs_diff_eq b f32Epsilon = true ∧
     b.relative_eq b f32Epsilon f32Epsilon = true ∧
     b.ulps_eq b f32Epsilon default_max_ulps = true) := by
  refine ⟨⟨?_, ?_, ?_⟩, ?_, ?_, ?_⟩ <;>
    simp only [Matrix4x4Sisd.abs_diff_eq, Matrix4x4Sisd.relative_eq, Matrix4x4Sisd.ulps_eq,
      Matrix4x4Simd.abs_diff_eq, Matrix4x4Simd.relative_eq, Matrix4x4Simd.ulps_eq,
      List.all_eq_true] <;>
    intro i _
  · exact f32AbsDiffEq_self _ (ha _ _)
  · exact f32RelativeEq_self _ (ha _ _)
  · exact f32UlpsEq_self _ (ha _ _)
  · exact f32AbsDiffEq_self _ (hb _ _)
  · exact f32RelativeEq_self _ (hb _ _)
  · exact f32UlpsEq_self _ (hb _ _)

/-- Witness for C5: both `ZERO` constants satisfy the all-finite hypothesis
and are approximately equal to themselves under all three relations. -/
theorem c5_witness :
    (Matrix4x4Sisd.ZERO.abs_diff_eq Matrix4x4Sisd.ZERO f32Epsilon = true ∧
     Matrix4x4Sisd.ZERO.relative_eq Matrix4x4Sisd.ZERO f32Epsilon f32Epsilon = true ∧
     Matrix4x4Sisd.ZERO.ulps_eq Matrix4x4Sisd.ZERO f32Epsilon default_max_ulps = true) ∧
    (Matrix4x4Simd.ZERO.abs_diff_eq Matrix4x4Simd.ZERO f32Epsilon = true ∧
     Matrix4x4Simd.ZERO.relative_eq Matrix4x4Simd.ZERO f32Epsilon f32Epsilon = true ∧
     Matrix4x4Simd.ZERO.ulps_eq Matrix4x4Simd.ZERO f32Epsilon default_max_ulps = true) :=
  c5_reflexive_on_finite Matrix4x4Sisd.ZERO Matrix4x4Simd.ZERO
    (fun _ _ => rfl) (fun _ _ => rfl)

/-- C6 amended: for every matrix `M` of either representation all of whose
cells are finite, `ZERO * M` is equal to `ZERO` under the code's exact
equality (the derived `PartialEq`, cellwise IEEE `==`): every product
`0 * m` is a signed zero and every accumulation of signed zeros from `+0`
stays a zero.  The finiteness restriction is forced — a NaN or infinite
cell turns `0 * m` into NaN.  (The vectorized kernel can produce `-0`
cells, which `PartialEq` counts as equal to `+0`.) -/
theorem c6_zero_mul_finite (a : Matrix4x4Sisd) (b : Matrix4x4Simd)
    (ha : ∀ r c : Fin 4, f32IsFinite (a.cells r c) = true)
    (hb : ∀ r c : Fin 4, f32IsFinite (b.cells r c) = true) :
    Matrix4x4Sisd.eq (Matrix4x4Sisd.ZERO.mul a) Matrix4x4Sisd.ZERO = true ∧
    Matrix4x4Simd.eq (Matrix4x4Simd.ZERO.multiply b) Matrix4x4Simd.ZERO = true := by
  constructor
  · simp only [Matrix4x4Sisd.eq, List.all_eq_true]
    intro i _
    refine f32Eq_poszero_of_isZero _ ?_
    refine f32IsZero_add _ _ (f32IsZero_add _ _ (f32IsZero_add _ _
      (f32IsZero_add _ _ rfl ?_) ?_) ?_) ?_ <;>
      exact f32IsZero_mul_poszero _ (ha _ _)
  · simp only [Matrix4x4Simd.eq, List.all_eq_true]
    intro i _
    fin_cases i <;>
    · refine f32Eq_poszero_of_isZero _ ?_
      exact f32IsZero_fma_poszero _ _ (hb _ _) (f32IsZero_fma_poszero _ _ (hb _ _)
        (f32IsZero_fma_poszero _ _ (hb _ _) (f32IsZero_mul_poszero _ (hb _ _))))

/-- Witness for C6: both `IDENTITY` constants satisfy the all-finite
hypothesis, and `ZERO` times `IDENTITY` is `ZERO` in both representations. -/
theorem c6_witness :
    Matrix4x4Sisd.eq (Matrix4x4Sisd.ZERO.mul Matrix4x4Sisd.IDENTITY)
      Matrix4x4Sisd.ZERO = true ∧
    Matrix4x4Simd.eq (Matrix4x4Simd.ZERO.multiply Matrix4x4Simd.IDENTITY)
      Matrix4x4Simd.ZERO = true :=
  c6_zero_mul_finite Matrix4x4Sisd.IDENTITY Matrix4x4Simd.IDENTITY
    (by decide) (by decide)

/-- C7 amended: for both representations the exact-equality comparison (the
derived `PartialEq`) holds iff all 16 corresponding cells are IEEE-equal
(`f32` `==`).  This is bit-pattern identity except at the special values:
`+0` and `-0` compare equal with different bit patterns, and NaN compares
unequal to itself despite an identical pattern. -/
theorem c7_eq_iff_cellwise_ieee_eq (a b : Matrix4x4Sisd) (p q : Matrix4x4Simd) :
    (Matrix4x4Sisd.eq a b = true ↔
      ∀ r c : Fin 4, f32Eq (a.cells r c) (b.cells r c) = true) ∧
    (Matrix4x4Simd.eq p q = true ↔
      ∀ r c : Fin 4, f32Eq (p.cells r c) (q.cells r c) = true) := by
  constructor
  · simp only [Matrix4x4Sisd.eq, List.all_eq_true]
    constructor
    · intro h r c
      have hm := h ⟨4 * r.val + c.val, by have := r.isLt; have := c.isLt; omega⟩
        (List.mem_finRange _)
      rwa [a.flat_cells_at_sisd r c, b.flat_cells_at_sisd r c] at hm
    · intro h i _
      exact h _ _
  · simp only [Matrix4x4Simd.eq, List.all_eq_true]
    constructor
    · intro h r c
      have hm := h ⟨4 * r.val + c.val, by have := r.isLt; have := c.isLt; omega⟩
        (List.mem_finRange _)
      rwa [p.flat_cells_at_simd r c, q.flat_cells_at_simd r c] at hm
    · intro h i _
      exact h _ _

theorem tryIntoRow_eq (l : List F32) :
    tryIntoRow l =
      if l.length == 4 then some (fun i : Fin 4 => l.getD i.val F32.nan) else none := by
  unfold tryIntoRow
  split
  · rename_i h
    rw [if_pos (by simpa using h)]
    refine congrArg some ?_
    funext i
    rw [List.get_eq_getElem, List.getD_eq_getElem l F32.nan (by have := i.isLt; omega)]
  · rename_i h
    rw [if_neg (by simpa using h)]

theorem mapM_tryIntoRow (rows : List (List F32)) :
    rows.mapM tryIntoRow =
      if rows.all (fun row => row.length == 4) then
        some (rows.map fun row => fun i : Fin 4 => row.getD i.val F32.nan)
      else none := by
  induction rows with
  | nil => rfl
  | cons r rs ih =>
      rw [List.mapM_cons, tryIntoRow_eq, ih]
      by_cases h1 : r.length = 4 <;>
        by_cases h2 : rs.all (fun row => row.length == 4) <;>
        simp [h1, h2, List.all_cons]

/-- C8: for both representations, `from_rows` succeeds exactly when the
source holds 4 rows of 4 values each, and then cell `(c, r)` of the result
is value `c` of source row `r`; for any other shape — a different number of
rows, or any row of a different length — the construction fails fatally
(the `unwrap` panic, modelled as `none`). -/
theorem c8_from_rows_shape (rows : List (List F32)) :
    Matrix4x4Sisd.from_rows rows =
      (if rows.length == 4 && rows.all (fun row => row.length == 4) then
        some ⟨fun r c => (rows.getD r.val []).getD c.val F32.nan⟩
      else none) ∧
    Matrix4x4Simd.from_rows rows =
      (if rows.length == 4 && rows.all (fun row => row.length == 4) then
        some ⟨fun r c => (rows.getD r.val []).getD c.val F32.nan⟩
      else none) := by
  constructor
  · simp only [Matrix4x4Sisd.from_rows]
    rw [mapM_tryIntoRow]
    by_cases h2 : rows.all (fun row => row.length == 4)
    · rw [if_pos h2]
      simp only [Option.some_bind]
      by_cases h1 : rows.length = 4
      · rw [dif_pos (by simpa using h1), if_pos (by simp [h1, h2])]
        refine congrArg some ?_
        refine congrArg Matrix4x4Sisd.mk ?_
        funext r c
        rw [List.get_eq_getElem, List.getElem_map,
          List.getD_eq_getElem rows [] (by have := r.isLt; omega)]
      · rw [dif_neg (by simpa using h1), if_neg (by simp [h1])]
    · rw [if_neg h2, if_neg (by simp [h2]), Option.none_bind]
  · simp only [Matrix4x4Simd.from_rows]
    rw [mapM_tryIntoRow]
    by_cases h2 : rows.all (fun row => row.length == 4)
    · rw [if_pos h2]
      simp only [Option.some_bind]
      by_cases h1 : rows.length = 4
      · rw [dif_pos (by simpa using h1), if_pos (by simp [h1, h2])]
        refine congrArg some ?_
        refine congrArg Matrix4x4Simd.mk ?_
        funext r c
        rw [List.get_eq_getElem, List.getElem_map,
          List.getD_eq_getElem rows [] (by have := r.isLt; omega)]
      · rw [dif_neg (by simpa using h1), if_neg (by simp [h1])]
    · rw [if_neg h2, if_neg (by simp [h2]), Option.none_bind]
